import Mathlib

/-!
Verification development for the incremental blog-archive scraper
(Go sources: fetchPage, getAllBlogLinks, downloadAndConvertPost,
scrapeAll, cleanMarkdown, checkpoint handling and main).

The scraper is embedded shallowly: the HTTP layer becomes an oracle of
fetch outcomes, each listing page becomes a record of anchors plus the
state of the next-page button, each article page becomes a record of
the parsed pieces that the extractor inspects, and the regex cleanup
passes become explicit character-list scanners that mirror the compiled
regular expressions of the source (anchoring, greediness and
leftmost-first replacement included).
-/

/- ── Character and string helpers ──────────────────────────────────────── -/

/-- Whitespace as trimmed by the Go strings.TrimSpace call (ASCII part). -/
def isGoSpace (c : Char) : Bool :=
  c == ' ' || c == '\t' || c == '\n' || c == '\x0b' || c == '\x0c' || c == '\r'

/-- Whitespace class of the backslash-s regex escape in Go: tab, newline,
form feed, carriage return and space. -/
def isReSpace (c : Char) : Bool :=
  c == ' ' || c == '\t' || c == '\n' || c == '\x0c' || c == '\r'

/-- Trim leading and trailing Go whitespace from a character list. -/
def goTrim (l : List Char) : List Char :=
  ((l.dropWhile isGoSpace).reverse.dropWhile isGoSpace).reverse

/-- Trim leading and trailing Go whitespace from a string
(strings.TrimSpace). -/
def goTrimS (s : String) : String := ⟨goTrim s.data⟩

/-- Number of leading newline characters. -/
def countLeadNl : List Char → Nat
  | [] => 0
  | c :: t => if c == '\n' then countLeadNl t + 1 else 0

/-- Index of the first occurrence of a pattern as a contiguous sublist. -/
def findSub (pat : List Char) : List Char → Option Nat
  | [] => if pat.isEmpty then some 0 else none
  | c :: cs =>
    if pat.isPrefixOf (c :: cs) then some 0
    else (findSub pat cs).map (· + 1)

/-- Index of the last newline in a character list, if any. -/
def lastNlPos (l : List Char) : Option Nat :=
  (l.foldl (fun (st : Nat × Option Nat) c =>
    (st.1 + 1, if c == '\n' then some st.1 else st.2)) (0, none)).2

/-- Cut everything from the first occurrence of the pattern to the end of
the list; used for the three regexes that match a marker and then
anything up to the end of the text. -/
def truncAt (pat : List Char) : List Char → List Char
  | [] => []
  | c :: cs => if pat.isPrefixOf (c :: cs) then [] else c :: truncAt pat cs

/- ── Generic regex-replacement scanners ────────────────────────────────── -/

/-- Fuelled scanner for multiline start-of-line anchored patterns: at every
line start the matcher is tried; a match (returning the matched length,
always positive) is deleted and scanning resumes after it, which in the
source text is again a line start because every such pattern ends in a
newline. Mirrors ReplaceAllString with an empty replacement for a
pattern anchored with the multiline caret. -/
def scanLSF (m : List Char → Option Nat) : Nat → Bool → List Char → List Char
  | 0, _, s => s
  | _ + 1, _, [] => []
  | f + 1, atLS, c :: cs =>
    if atLS then
      match m (c :: cs) with
      | some n => scanLSF m f true (cs.drop (n - 1))
      | none => c :: scanLSF m f (c == '\n') cs
    else c :: scanLSF m f (c == '\n') cs

/-- Run a line-start-anchored deletion pass with enough fuel. -/
def scanLS (m : List Char → Option Nat) (s : List Char) : List Char :=
  scanLSF m (s.length + 1) true s

/-- Fuelled scanner for unanchored patterns: the matcher is tried at every
position; a match is deleted and scanning resumes after it. Mirrors
ReplaceAllString with an empty replacement for an unanchored pattern. -/
def scanAllF (m : List Char → Option Nat) : Nat → List Char → List Char
  | 0, s => s
  | _ + 1, [] => []
  | f + 1, c :: cs =>
    match m (c :: cs) with
    | some n => scanAllF m f (cs.drop (n - 1))
    | none => c :: scanAllF m f cs

/-- Run an unanchored deletion pass with enough fuel. -/
def scanAll (m : List Char → Option Nat) (s : List Char) : List Char :=
  scanAllF m (s.length + 1) s

/- ── Month-day-year date pattern ───────────────────────────────────────── -/

/-- The twelve month names of the date regexes, in alternation order. -/
def monthNames : List String :=
  ["January", "February", "March", "April", "May", "June", "July",
   "August", "September", "October", "November", "December"]

/-- Match one month name at the head of the list, returning its length. -/
def matchMonth (s : List Char) : Option Nat :=
  (monthNames.find? (fun m => m.data.isPrefixOf s)).map (fun m => m.data.length)

/-- Whether the list starts with four digits. -/
def fourDigits (s : List Char) : Bool :=
  match s with
  | a :: b :: c :: d :: _ => a.isDigit && b.isDigit && c.isDigit && d.isDigit
  | _ => false

/-- Match the long-form date pattern: month name, space, one or two
digits, comma, space, four digits. Two digits are preferred, matching
the greedy one-or-two-digit quantifier. Returns the matched length. -/
def matchMDY (s : List Char) : Option Nat :=
  match matchMonth s with
  | none => none
  | some ml =>
    match s.drop ml with
    | ' ' :: rest =>
      let two :=
        match rest with
        | d1 :: d2 :: ',' :: ' ' :: ys =>
          if d1.isDigit && d2.isDigit && fourDigits ys then some (ml + 9) else none
        | _ => none
      (match two with
       | some n => some n
       | none =>
         match rest with
         | d1 :: ',' :: ' ' :: ys =>
           if d1.isDigit && fourDigits ys then some (ml + 8) else none
         | _ => none)
    | _ => none

/-- The anchored whole-string long-form date test (reDateText). -/
def isLongDate (s : String) : Bool :=
  matchMDY s.data == some s.data.length

/- ── The individual cleanup matchers (the compiled regexes) ────────────── -/

/-- Literal of the breadcrumb link line. -/
def breadcrumbLit : List Char := "[All Articles](/unchained)".data

/-- reBreadcrumb: a line-start breadcrumb link followed by one or more
newlines. -/
def matchBreadcrumb (s : List Char) : Option Nat :=
  if breadcrumbLit.isPrefixOf s then
    let k := countLeadNl (s.drop breadcrumbLit.length)
    if k == 0 then none else some (breadcrumbLit.length + k)
  else none

/-- reDateLine: a line-start long-form date followed by one or more
newlines. -/
def matchDateLine (s : List Char) : Option Nat :=
  match matchMDY s with
  | none => none
  | some n =>
    let k := countLeadNl (s.drop n)
    if k == 0 then none else some (n + k)

/-- The per-call duplicate-heading regex: a line-start level-one heading
holding exactly the quoted title, then regex whitespace ending in at
least one newline (the greedy whitespace star backtracks so the match
extends to the last newline of the whitespace run). -/
def matchH1 (title : List Char) (s : List Char) : Option Nat :=
  let pre := '#' :: ' ' :: title
  if pre.isPrefixOf s then
    let run := (s.drop pre.length).takeWhile isReSpace
    match lastNlPos run with
    | none => none
    | some i => some (pre.length + i + 1)
  else none

/-- Literal opening the broken image-proxy line. -/
def nextImageLit : List Char := "![](/_next/image?url=".data

/-- reNextImage: a line-start image-proxy markdown image whose line ends
with a closing parenthesis directly before its newline. -/
def matchNextImage (s : List Char) : Option Nat :=
  if nextImageLit.isPrefixOf s then
    let rest := s.drop nextImageLit.length
    let seg := rest.takeWhile (fun c => c != '\n')
    match seg.getLast? with
    | some ')' =>
      if seg.length < rest.length then
        some (nextImageLit.length + seg.length + 1)
      else none
    | _ => none
  else none

/-- Literal opening the vendor call-to-action block. -/
def cgCtaLit : List Char := "\nChainguard provides a secure foundation".data

/-- Literal of the get-in-touch link. -/
def getInTouchLit : List Char := "[Get in touch]".data

/-- reCGCta: a newline, the vendor sentence opener, lazily anything up to
the first get-in-touch link, then the remainder of that line including
its newline. -/
def matchCGCta (s : List Char) : Option Nat :=
  if cgCtaLit.isPrefixOf s then
    let rest := s.drop cgCtaLit.length
    match findSub getInTouchLit rest with
    | none => none
    | some i =>
      let after := rest.drop (i + getInTouchLit.length)
      let seg := after.takeWhile (fun c => c != '\n')
      if seg.length < after.length then
        some (cgCtaLit.length + i + getInTouchLit.length + seg.length + 1)
      else none
  else none

/-- Literal opening the ready-to-get-started teaser. -/
def readyLit : List Char := "\n_Ready to get started".data

/-- reReadyStart: the teaser opener and the rest of its line including the
newline. -/
def matchReady (s : List Char) : Option Nat :=
  if readyLit.isPrefixOf s then
    let rest := s.drop readyLit.length
    let seg := rest.takeWhile (fun c => c != '\n')
    if seg.length < rest.length then
      some (readyLit.length + seg.length + 1)
    else none
  else none

/-- Literal of the share-footer marker (reShareFooter cuts from here to the
end of the text). -/
def shareLit : List Char := "\nShare this article".data

/-- Literal of the related-articles marker (reRelated cuts from here to the
end of the text). -/
def relatedLit : List Char := "\nRelated articles\n".data

/-- Literal of the want-to-learn-more marker (reWantMore cuts from here to
the end of the text). -/
def wantMoreLit : List Char := "\n## Want to learn more about Chainguard?".data

/-- Fuelled collapse of runs of three or more newlines to exactly two
(reExcessBlanks). -/
def collapseBlanksF : Nat → List Char → List Char
  | 0, s => s
  | _ + 1, [] => []
  | f + 1, c :: cs =>
    if c == '\n' then
      let k := countLeadNl cs
      (if k + 1 ≥ 3 then ['\n', '\n'] else '\n' :: List.replicate k '\n')
        ++ collapseBlanksF f (cs.drop k)
    else c :: collapseBlanksF f cs

/-- Collapse runs of three or more newlines to exactly two. -/
def collapseBlanks (s : List Char) : List Char :=
  collapseBlanksF (s.length + 1) s

/- ── The cleanup pipeline (cleanMarkdown) ──────────────────────────────── -/

/-- The cleanup pipeline of the source, pass for pass in source order:
breadcrumb line, standalone date line, duplicate title heading,
share footer, related-articles block, want-to-learn-more block,
vendor call-to-action block, ready-to-get-started teaser, broken
image-proxy lines, blank-line collapse, final trim. -/
def cleanMarkdown (raw title : String) : String :=
  let s1 := scanLS matchBreadcrumb raw.data
  let s2 := scanLS matchDateLine s1
  let s3 := scanLS (matchH1 title.data) s2
  let s4 := truncAt shareLit s3
  let s5 := truncAt relatedLit s4
  let s6 := truncAt wantMoreLit s5
  let s7 := scanAll matchCGCta s6
  let s8 := scanAll matchReady s7
  let s9 := scanLS matchNextImage s8
  ⟨goTrim (collapseBlanks s9)⟩

example :
    cleanMarkdown "# My Title\n\nBody\n\nShare this article\nFooter junk" "My Title"
      = "Body" := by decide

example :
    cleanMarkdown " [All Articles](/unchained)\nX" "T"
      = "[All Articles](/unchained)\nX" := by decide

example :
    cleanMarkdown "[All Articles](/unchained)\nX" "T" = "X" := by decide

/- ── Data model ────────────────────────────────────────────────────────── -/

/-- The blog site origin of the source constants. -/
def baseURL : String := "https://chainguard.dev"

/-- One discovered article reference (blogPost of the source). -/
structure blogPost where
  title : String
  url : String
  slug : String
deriving DecidableEq

/-- One private scrape result (scrapeResult of the source); on error only
the slug and the error are meaningful and the content fields carry the
zero value. -/
structure scrapeResult where
  slug : String
  title : String
  url : String
  date : String
  markdown : String
  err : Option String
deriving DecidableEq

/-- One persisted checkpoint entry (checkpointEntry of the source). -/
structure checkpointEntry where
  title : String
  url : String
  date : String
  scrapedAt : String
deriving DecidableEq

/-- The checkpoint ledger: a mapping from slug to entry, embedded as an
association list. -/
abbrev checkpoint := List (String × checkpointEntry)

/-- Lookup in an association list keyed by strings. -/
def lookupKey {α : Type} : List (String × α) → String → Option α
  | [], _ => none
  | (k, v) :: t, s => if k = s then some v else lookupKey t s

/-- The keys of an association list. -/
def keysOf {α : Type} (l : List (String × α)) : List String := l.map Prod.fst

/-- Overwriting insertion into an association list, mirroring assignment
into a Go map. -/
def insertKey {α : Type} (l : List (String × α)) (s : String) (v : α) :
    List (String × α) :=
  (s, v) :: l.filter (fun q => q.1 != s)

/- ── HTTP layer (fetchPage) ────────────────────────────────────────────── -/

/-- Outcome of one HTTP GET as seen by fetchPage: either the transport
fails (request construction or client error), or a response arrives
carrying a status code, the body read so far and an optional body-read
error. -/
inductive httpOutcome where
  | transportError (msg : String)
  | response (status : Nat) (body : String) (readErr : Option String)
deriving DecidableEq

/-- fetchPage of the source: on transport error it returns the error; on
any response it returns the body together with the body-read error.
The status code is never inspected. -/
def fetchPage : httpOutcome → String × Option String
  | .transportError msg => ("", some msg)
  | .response _ body readErr => (body, readErr)

/- ── Listing discovery (getAllBlogLinks) ───────────────────────────────── -/

/-- One anchor of a listing page as seen by the selector loop: its href
attribute and its text content. -/
structure anchorTag where
  href : String
  text : String
deriving DecidableEq

/-- One successfully parsed listing page: the anchors matching the
unchained-path selector loop runs over, and the next-page button state
(none means no button, some d means a button whose disabled attribute
is present iff d is true). -/
structure pageData where
  anchors : List anchorTag
  nextDisabled : Option Bool
deriving DecidableEq

/-- A site, for discovery: the fetch outcome of listing page n is entry
n - 1; a missing entry is a fetch failure. -/
abbrev listingSite := List (Option pageData)

/-- The slug derived from an anchor: the href with the unchained path
stripped (strings.TrimPrefix, after the selector guaranteed the
prefix). -/
def slugOf (a : anchorTag) : String := ⟨a.href.data.drop "/unchained/".length⟩

/-- The title derived from an anchor: its trimmed text, falling back to
the slug when empty. -/
def titleOf (a : anchorTag) : String :=
  if goTrimS a.text == "" then slugOf a else goTrimS a.text

/-- The body of the anchor iteration of getAllBlogLinks: skip anchors not
matching the path selector, skip the bare listing root and category
links, derive the slug, skip empty, parameterized and already-seen
slugs, otherwise record the slug as seen and append the new post with
the trimmed anchor text as title (falling back to the slug). -/
def anchorStep (st : List String × List blogPost) (a : anchorTag) :
    List String × List blogPost :=
  if !("/unchained/".data.isPrefixOf a.href.data) then st
  else if a.href == "/unchained" || (findSub "/category/".data a.href.data).isSome then st
  else if slugOf a == "" || (slugOf a).data.contains '?' || st.1.contains (slugOf a) then st
  else (slugOf a :: st.1, st.2 ++ [⟨titleOf a, baseURL ++ a.href, slugOf a⟩])

/-- Process every selector-matched anchor of one listing page. -/
def processPage (pd : pageData) (st : List String × List blogPost) :
    List String × List blogPost :=
  pd.anchors.foldl anchorStep st

/-- The page loop of getAllBlogLinks: fetch page after page, accumulate
posts, stop cleanly when the next-page button is absent or disabled,
and stop with the page number as error when a page fails to fetch; the
posts gathered so far are returned in either case. -/
def getAllBlogLinksAux :
    listingSite → Nat → List String → List blogPost → List blogPost × Option Nat
  | [], page, _, posts => (posts, some page)
  | none :: _, page, _, posts => (posts, some page)
  | some pd :: rest, page, seen, posts =>
    let st := processPage pd (seen, posts)
    match pd.nextDisabled with
    | none => (st.2, none)
    | some true => (st.2, none)
    | some false => getAllBlogLinksAux rest (page + 1) st.1 st.2

/-- getAllBlogLinks of the source, over a site of fetch outcomes. -/
def getAllBlogLinks (site : listingSite) : List blogPost × Option Nat :=
  getAllBlogLinksAux site 1 [] []

/-- The discovery phase of main: a fatal exit (modelled as none) on any
discovery error or on an empty listing, otherwise the full post list. -/
def mainDiscover (site : listingSite) : Option (List blogPost) :=
  match (getAllBlogLinks site).2 with
  | some _ => none
  | none =>
    if (getAllBlogLinks site).1.isEmpty then none
    else some (getAllBlogLinks site).1

/- ── Date extraction (downloadAndConvertPost) ──────────────────────────── -/

/-- Days of each month, honouring Go leap-year validation. -/
def daysInMonth (y m : Nat) : Nat :=
  if m = 2 then
    if y % 4 = 0 && (y % 100 != 0 || y % 400 = 0) then 29 else 28
  else if m = 4 || m = 6 || m = 9 || m = 11 then 30
  else 31

/-- Numeric value of a digit character. -/
def digitVal (c : Char) : Nat := c.toNat - 48

/-- Parse a machine-readable date of the fixed layout year-month-day with
a four digit year and two digit month and day, validating the month and
the day range exactly as the Go time parser does; any extra text or
malformed field is a parse error. -/
def parseISODate (s : String) : Option (Nat × Nat × Nat) :=
  match s.data with
  | [y1, y2, y3, y4, '-', m1, m2, '-', d1, d2] =>
    if y1.isDigit && y2.isDigit && y3.isDigit && y4.isDigit &&
       m1.isDigit && m2.isDigit && d1.isDigit && d2.isDigit then
      let y := digitVal y1 * 1000 + digitVal y2 * 100 + digitVal y3 * 10 + digitVal y4
      let m := digitVal m1 * 10 + digitVal m2
      let d := digitVal d1 * 10 + digitVal d2
      if 1 ≤ m && m ≤ 12 && 1 ≤ d && d ≤ daysInMonth y m then
        some (y, m, d)
      else none
    else none
  | _ => none

/-- Zero-padded four digit year, as the Go long-year format verb prints. -/
def pad4 (n : Nat) : String :=
  if n < 10 then "000" ++ toString n
  else if n < 100 then "00" ++ toString n
  else if n < 1000 then "0" ++ toString n
  else toString n

/-- Format a parsed date in the human long form month-name day, year. -/
def formatLongDate : Nat × Nat × Nat → String
  | (y, m, d) => (monthNames.getD (m - 1) "") ++ " " ++ toString d ++ ", " ++ pad4 y

/-- The first structured time element of an article page: its optional
machine-readable datetime attribute and its text content. -/
structure timeElement where
  datetimeAttr : Option String
  text : String
deriving DecidableEq

/-- One fetched and parsed article page, reduced to the pieces the
extractor inspects: the first time element if any, the trimmed-on-
demand text of the paragraph, div and span nodes in document order,
the first level-one heading text, and the markdown conversion of the
resolved content region (none when conversion fails). -/
structure articleDoc where
  timeEl : Option timeElement
  pdivspanTexts : List String
  h1 : String
  convertedMD : Option String
deriving DecidableEq

/-- The date-resolution logic of downloadAndConvertPost, line for line: if
a time element exists and carries a non-empty datetime attribute, use
the reformatted parse when it parses and the raw attribute otherwise;
with no attribute (or an empty one) use the trimmed element text; if
the result is still empty, take the first paragraph, div or span whose
trimmed text matches the long-form date pattern; otherwise empty. -/
def resolveDate (d : articleDoc) : String :=
  let date :=
    match d.timeEl with
    | some t =>
      match t.datetimeAttr with
      | some dt =>
        if dt != "" then
          match parseISODate dt with
          | some ymd => formatLongDate ymd
          | none => dt
        else goTrimS t.text
      | none => goTrimS t.text
    | none => ""
  if date = "" then
    match d.pdivspanTexts.find? (fun s => isLongDate (goTrimS s)) with
    | some s => goTrimS s
    | none => ""
  else date

/-- downloadAndConvertPost of the source over a fetched page oracle: a
fetch or parse failure (none) or a conversion failure yields an error
result carrying only the slug; otherwise the title prefers the trimmed
first heading over the discovery title, the date is resolved, and the
converted markdown is cleaned. -/
def downloadAndConvertPost (post : blogPost) (page : Option articleDoc) :
    scrapeResult :=
  match page with
  | none =>
    { slug := post.slug, title := "", url := "", date := "", markdown := "",
      err := some "fetch" }
  | some d =>
    match d.convertedMD with
    | none =>
      { slug := post.slug, title := "", url := "", date := "", markdown := "",
        err := some "convert" }
    | some raw =>
      let t := goTrimS d.h1
      let title := if t != "" then t else post.title
      { slug := post.slug, title := title, url := post.url,
        date := resolveDate d, markdown := cleanMarkdown raw title,
        err := none }

/- ── Bounded concurrent scraper (scrapeAll) ────────────────────────────── -/

/-- scrapeAll of the source: every input post is processed exactly once;
results whose error is non-nil are dropped and the successes are
collected into the mapping keyed by the result slug. Collection order
is irrelevant downstream, so the mapping is embedded as the
association list in input order. -/
def scrapeAll (fetchOne : blogPost → scrapeResult) (posts : List blogPost) :
    List (String × scrapeResult) :=
  posts.filterMap (fun p =>
    let r := fetchOne p
    if r.err.isNone then some (r.slug, r) else none)

/- ── Checkpoint merge and the main run ─────────────────────────────────── -/

/-- A checkpoint entry from a successful scrape result, stamped with the
run timestamp. -/
def mkEntry (now : String) (r : scrapeResult) : checkpointEntry :=
  ⟨r.title, r.url, r.date, now⟩

/-- The checkpoint update loop of main: one overwriting insertion per
scraped slug. -/
def updateCheckpoint (now : String) (cp : checkpoint)
    (scraped : List (String × scrapeResult)) : checkpoint :=
  scraped.foldl (fun c q => insertKey c q.1 (mkEntry now q.2)) cp

/-- The selection step of main: with the force flag, scrape everything and
discard the ledger; otherwise scrape exactly the discovered posts whose
slug the ledger does not know, in listing order. Returns the selection
and the ledger the run continues with. -/
def selectToScrape (force : Bool) (cp : checkpoint) (allPosts : List blogPost) :
    List blogPost × checkpoint :=
  if force then (allPosts, [])
  else (allPosts.filter (fun p => (lookupKey cp p.slug).isNone), cp)

/-- What the run did to the archive file: left it untouched (the early
return when nothing is selected), rebuilt it from scratch with the
given section slugs in listing order, or appended those sections. -/
inductive archiveAction where
  | untouched
  | rebuilt (sections : List String)
  | appended (sections : List String)
deriving DecidableEq

/-- Observable outcome of one run: the persisted ledger, the archive
action, and the number of article fetches performed. -/
structure runOutcome where
  finalCp : checkpoint
  archive : archiveAction
  fetches : Nat
deriving DecidableEq

/-- The main run over the oracles: discovery (fatal on error or empty
listing), selection against the ledger, the early return leaving both
files untouched when nothing is selected, the concurrent scrape of the
selection (one article fetch each), the checkpoint update with the
successes, and the archive write, rebuilding when forced or when no
archive file exists and appending otherwise, emitting one section per
discovered post whose slug was scraped this run, in listing order. -/
def runMain (force archiveExists : Bool) (cp0 : checkpoint) (site : listingSite)
    (pages : blogPost → Option articleDoc) (now : String) : Option runOutcome :=
  match mainDiscover site with
  | none => none
  | some allPosts =>
    let sel := selectToScrape force cp0 allPosts
    if sel.1.isEmpty then some ⟨cp0, .untouched, 0⟩
    else
      let scraped := scrapeAll (fun p => downloadAndConvertPost p (pages p)) sel.1
      let cp2 := updateCheckpoint now sel.2 scraped
      let sections :=
        (allPosts.filter (fun p => (lookupKey scraped p.slug).isSome)).map
          (fun p => p.slug)
      some ⟨cp2, if force || !archiveExists then .rebuilt sections
                 else .appended sections, sel.1.length⟩

/- ── Concrete fixtures for counterexamples and witnesses ───────────────── -/

/-- A checkpoint entry for the post-a slug. -/
def entryA : checkpointEntry :=
  ⟨"Post A", "https://chainguard.dev/unchained/post-a", "", "t0"⟩

/-- A ledger knowing only the post-a slug. -/
def cpA : checkpoint := [("post-a", entryA)]

/-- Listing anchor of the post-a article. -/
def anchorA : anchorTag := ⟨"/unchained/post-a", "Post A"⟩

/-- Listing anchor of the post-b article. -/
def anchorB : anchorTag := ⟨"/unchained/post-b", "Post B"⟩

/-- The discovered post-a reference. -/
def postA : blogPost := ⟨"Post A", "https://chainguard.dev/unchained/post-a", "post-a"⟩

/-- The discovered post-b reference. -/
def postB : blogPost := ⟨"Post B", "https://chainguard.dev/unchained/post-b", "post-b"⟩

/-- A site with one listing page holding both posts and no next button. -/
def siteTwoPosts : listingSite := [some ⟨[anchorA, anchorB], none⟩]

/-- A site with one listing page holding only post-a and no next button. -/
def siteOnePost : listingSite := [some ⟨[anchorA], none⟩]

/-- A site whose first page succeeds with post-a and an enabled next
button, and whose second page fails to fetch. -/
def siteFailPage2 : listingSite := [some ⟨[anchorA], some false⟩, none]

/-- An article-page oracle on which every fetch and conversion succeeds. -/
def pagesOK : blogPost → Option articleDoc :=
  fun _ => some ⟨none, [], "", some "Body"⟩

/-- An article-page oracle on which every fetch fails. -/
def pagesFail : blogPost → Option articleDoc := fun _ => none

example : getAllBlogLinks siteTwoPosts = ([postA, postB], none) := by decide
example : getAllBlogLinks siteFailPage2 = ([postA], some 2) := by decide
example : mainDiscover siteFailPage2 = none := by decide
example :
    (selectToScrape false cpA [postA, postB]).1 = [postB] := by decide
example :
    runMain false false cpA siteTwoPosts pagesOK "t1"
      = some ⟨[("post-b", ⟨"Post B", "https://chainguard.dev/unchained/post-b", "", "t1"⟩),
               ("post-a", entryA)],
              .rebuilt ["post-b"], 1⟩ := by decide
example :
    runMain false false [] siteOnePost pagesFail "t1"
      = some ⟨[], .rebuilt [], 1⟩ := by decide

/- ── Association-list lemmas ───────────────────────────────────────────── -/

theorem lookupKey_isSome_iff {α : Type} (l : List (String × α)) (s : String) :
    (lookupKey l s).isSome = true ↔ s ∈ keysOf l := by
  induction l with
  | nil => simp [lookupKey, keysOf]
  | cons q t ih =>
    obtain ⟨k, v⟩ := q
    by_cases h : k = s
    · subst h; simp [lookupKey, keysOf]
    · simp [lookupKey, keysOf, h, ih, Ne.symm h]

theorem lookupKey_eq_none_iff {α : Type} (l : List (String × α)) (s : String) :
    lookupKey l s = none ↔ s ∉ keysOf l := by
  rw [← lookupKey_isSome_iff]
  cases lookupKey l s <;> simp

theorem mem_keys_insertKey {α : Type} (l : List (String × α)) (s x : String) (v : α) :
    x ∈ keysOf (insertKey l s v) ↔ x = s ∨ x ∈ keysOf l := by
  simp only [insertKey, keysOf, List.map_cons, List.mem_cons]
  constructor
  · rintro (h | h)
    · exact Or.inl h
    · obtain ⟨q, hq, rfl⟩ := List.mem_map.mp h
      exact Or.inr (List.mem_map.mpr ⟨q, (List.mem_filter.mp hq).1, rfl⟩)
  · rintro (h | h)
    · exact Or.inl h
    · by_cases hx : x = s
      · exact Or.inl hx
      · obtain ⟨q, hq, rfl⟩ := List.mem_map.mp h
        refine Or.inr (List.mem_map.mpr ⟨q, List.mem_filter.mpr ⟨hq, ?_⟩, rfl⟩)
        simpa using hx

theorem mem_keys_updateCheckpoint (now : String) (cp : checkpoint)
    (m : List (String × scrapeResult)) (s : String) :
    s ∈ keysOf (updateCheckpoint now cp m) ↔ s ∈ keysOf m ∨ s ∈ keysOf cp := by
  induction m generalizing cp with
  | nil => simp [updateCheckpoint, keysOf]
  | cons q t ih =>
    have hstep : updateCheckpoint now cp (q :: t)
        = updateCheckpoint now (insertKey cp q.1 (mkEntry now q.2)) t := rfl
    rw [hstep, ih, mem_keys_insertKey]
    simp only [keysOf, List.map_cons, List.mem_cons]
    tauto

/- ── Theorems for claim C10 ────────────────────────────────────────────── -/

/-- Claim C10: the page fetcher treats every HTTP response as a success
regardless of its status code — for any response received without a
transport error (404 and 500 included), fetchPage returns the body
with no error, and its result does not depend on the status code at
all. -/
theorem c10_fetchPage_status_blind (status : Nat) (body : String) :
    fetchPage (.response status body none) = (body, none)
      ∧ ∀ status2 : Nat, ∀ readErr : Option String,
          fetchPage (.response status body readErr)
            = fetchPage (.response status2 body readErr) :=
  ⟨rfl, fun _ _ => rfl⟩

/- ── Theorems for claim C1 ─────────────────────────────────────────────── -/

/-- Claim C1 counterexample: on a site whose first listing page succeeds
(with one article and an enabled next-page button) and whose second
page fails to fetch, discovery does return the partial post list with
the page-2 error, but main exits fatally instead of continuing with
the partial results, contradicting the claim that only a page-1 error
is fatal. -/
theorem c1_counterexample :
    getAllBlogLinks siteFailPage2 = ([postA], some 2)
      ∧ mainDiscover siteFailPage2 = none := by
  constructor <;> decide

/-- Claim C1 (amended): getAllBlogLinks returns the partial posts gathered
before the failing page together with the error, but main treats every
discovery error — on page 1 or any later page — as fatal, so the run
never continues with the partial results. -/
theorem c1_amended_discovery_error_fatal (site : listingSite) (p : Nat)
    (h : (getAllBlogLinks site).2 = some p) : mainDiscover site = none := by
  simp [mainDiscover, h]

/-- Witness for the amended claim C1 at the concrete failing site. -/
theorem c1_amended_discovery_error_fatal_witness :
    mainDiscover siteFailPage2 = none :=
  c1_amended_discovery_error_fatal siteFailPage2 2 (by decide)

/- ── Theorems for claim C2 ─────────────────────────────────────────────── -/

/-- Claim C2: without the force flag the selection is exactly the
discovered posts whose slug the ledger does not contain, in listing
order (a sublist of the listing); no slug present in the ledger is
re-scraped; with the force flag every discovered post is selected and
the ledger is reset to empty; and the concrete ledger knowing post-a
against the listing post-a, post-b selects exactly post-b. -/
theorem c2_selection (cp : checkpoint) (posts : List blogPost) :
    selectToScrape true cp posts = (posts, [])
  ∧ (selectToScrape false cp posts).2 = cp
  ∧ List.Sublist (selectToScrape false cp posts).1 posts
  ∧ (∀ p, p ∈ (selectToScrape false cp posts).1
        ↔ p ∈ posts ∧ lookupKey cp p.slug = none)
  ∧ (selectToScrape false cpA [postA, postB]).1 = [postB] := by
  refine ⟨rfl, rfl, ?_, ?_, by decide⟩
  · simp [selectToScrape]
  · intro p
    simp [selectToScrape, List.mem_filter, Option.isNone_iff_eq_none]

/-- Witness for claim C2 at the concrete example of the claim. -/
theorem c2_selection_witness :
    postB ∈ (selectToScrape false cpA [postA, postB]).1 :=
  ((c2_selection cpA [postA, postB]).2.2.2.1 postB).mpr ⟨by decide, by decide⟩

/- ── Lemmas about the scraper and extractor ────────────────────────────── -/

theorem downloadAndConvertPost_slug (post : blogPost) (page : Option articleDoc) :
    (downloadAndConvertPost post page).slug = post.slug := by
  cases page with
  | none => rfl
  | some d => cases h : d.convertedMD <;> simp [downloadAndConvertPost, h]

theorem mem_keys_scrapeAll (f : blogPost → scrapeResult) (posts : List blogPost)
    (s : String) :
    s ∈ keysOf (scrapeAll f posts)
      ↔ ∃ q ∈ posts, (f q).err = none ∧ (f q).slug = s := by
  induction posts with
  | nil => simp [scrapeAll, keysOf]
  | cons a t ih =>
    cases h : (f a).err with
    | none =>
      have hc : scrapeAll f (a :: t) = ((f a).slug, f a) :: scrapeAll f t := by
        simp [scrapeAll, h]
      rw [hc]
      simp only [keysOf, List.map_cons, List.mem_cons]
      rw [show List.map Prod.fst (scrapeAll f t) = keysOf (scrapeAll f t) from rfl, ih]
      constructor
      · rintro (rfl | ⟨q, hq, hqe, hqs⟩)
        · exact ⟨a, Or.inl rfl, h, rfl⟩
        · exact ⟨q, Or.inr hq, hqe, hqs⟩
      · rintro ⟨q, rfl | hq2, hqe, hqs⟩
        · exact Or.inl hqs.symm
        · exact Or.inr ⟨q, hq2, hqe, hqs⟩
    | some e =>
      have hc : scrapeAll f (a :: t) = scrapeAll f t := by simp [scrapeAll, h]
      rw [hc, ih]
      constructor
      · rintro ⟨q, hq, hqe, hqs⟩
        exact ⟨q, List.mem_cons_of_mem a hq, hqe, hqs⟩
      · rintro ⟨q, hq, hqe, hqs⟩
        rcases List.mem_cons.mp hq with rfl | hq2
        · rw [h] at hqe; cases hqe
        · exact ⟨q, hq2, hqe, hqs⟩

/- ── Theorems for claim C4 ─────────────────────────────────────────────── -/

/-- Claim C4: scrapeAll returns a mapping whose keys are exactly the slugs
of the posts whose scrape succeeded — results with a non-nil error are
excluded while every other success is still present — and a slug whose
every scrape attempt failed and that is not already checkpointed stays
out of the updated ledger and is selected again by the next
non-forced run in which it is discovered. -/
theorem c4_scrapeAll_failures (pages : blogPost → Option articleDoc)
    (posts nextAll : List blogPost) (now : String) (cp : checkpoint)
    (p : blogPost) (_hp : p ∈ posts)
    (hfail : ∀ q ∈ posts, q.slug = p.slug
      → (downloadAndConvertPost q (pages q)).err ≠ none)
    (hnotold : p.slug ∉ keysOf cp) (hnext : p ∈ nextAll) :
    (∀ s, s ∈ keysOf (scrapeAll (fun q => downloadAndConvertPost q (pages q)) posts)
        ↔ ∃ q ∈ posts, (downloadAndConvertPost q (pages q)).err = none ∧ q.slug = s)
  ∧ p.slug ∉ keysOf (updateCheckpoint now cp
        (scrapeAll (fun q => downloadAndConvertPost q (pages q)) posts))
  ∧ p ∈ (selectToScrape false
        (updateCheckpoint now cp
          (scrapeAll (fun q => downloadAndConvertPost q (pages q)) posts))
        nextAll).1 := by
  have hkeys : ∀ s,
      s ∈ keysOf (scrapeAll (fun q => downloadAndConvertPost q (pages q)) posts)
        ↔ ∃ q ∈ posts, (downloadAndConvertPost q (pages q)).err = none ∧ q.slug = s := by
    intro s
    rw [mem_keys_scrapeAll]
    constructor
    · rintro ⟨q, hq, hqe, hqs⟩
      exact ⟨q, hq, hqe, by rw [← downloadAndConvertPost_slug q (pages q)]; exact hqs⟩
    · rintro ⟨q, hq, hqe, hqs⟩
      exact ⟨q, hq, hqe, by rw [downloadAndConvertPost_slug]; exact hqs⟩
  have hnotnew : p.slug ∉ keysOf (updateCheckpoint now cp
      (scrapeAll (fun q => downloadAndConvertPost q (pages q)) posts)) := by
    rw [mem_keys_updateCheckpoint]
    rintro (hin | hin)
    · obtain ⟨q, hq, hqe, hqs⟩ := (hkeys p.slug).mp hin
      exact hfail q hq hqs hqe
    · exact hnotold hin
  refine ⟨hkeys, hnotnew, ?_⟩
  have : lookupKey (updateCheckpoint now cp
      (scrapeAll (fun q => downloadAndConvertPost q (pages q)) posts)) p.slug = none :=
    (lookupKey_eq_none_iff _ _).mpr hnotnew
  simp [selectToScrape, List.mem_filter, hnext, this]

/-- Witness for claim C4: with one discovered post whose fetch fails, the
post is absent from the updated ledger and selected again next run. -/
theorem c4_scrapeAll_failures_witness :
    postA ∈ (selectToScrape false
        (updateCheckpoint "t" []
          (scrapeAll (fun q => downloadAndConvertPost q (pagesFail q)) [postA]))
        [postA]).1 :=
  (c4_scrapeAll_failures pagesFail [postA] [postA] "t" [] postA
    (by decide) (by decide) (by decide) (by decide)).2.2

/- ── Discovery invariant and theorems for claim C8 ─────────────────────── -/

/-- Invariant of the discovery accumulator: every accumulated post has a
non-empty slug recorded in the seen set, and the accumulated slugs are
pairwise distinct. -/
def discInv (seen : List String) (posts : List blogPost) : Prop :=
  (∀ p ∈ posts, p.slug ≠ "" ∧ p.slug ∈ seen)
    ∧ (posts.map (fun p => p.slug)).Nodup

theorem anchorStep_inv (st : List String × List blogPost) (a : anchorTag)
    (h : discInv st.1 st.2) :
    discInv (anchorStep st a).1 (anchorStep st a).2
      ∧ ∀ s ∈ st.1, s ∈ (anchorStep st a).1 := by
  obtain ⟨seen, posts⟩ := st
  unfold anchorStep
  split
  · exact ⟨h, fun s hs => hs⟩
  split
  · exact ⟨h, fun s hs => hs⟩
  split
  · exact ⟨h, fun s hs => hs⟩
  rename_i h3
  simp only [Bool.or_eq_true, beq_iff_eq, not_or] at h3
  obtain ⟨⟨hne, hquery⟩, hseen⟩ := h3
  have hseen2 : slugOf a ∉ seen := by
    intro hc
    exact hseen (by simpa using hc)
  refine ⟨⟨?_, ?_⟩, fun s hs => List.mem_cons_of_mem _ hs⟩
  · intro p hp
    rcases List.mem_append.mp hp with hp1 | hp2
    · obtain ⟨hp3, hp4⟩ := h.1 p hp1
      exact ⟨hp3, List.mem_cons_of_mem _ hp4⟩
    · rcases List.mem_singleton.mp hp2 with rfl
      exact ⟨hne, List.mem_cons_self _ _⟩
  · simp only [List.map_append, List.map_cons, List.map_nil]
    refine List.Nodup.append h.2 (List.nodup_singleton _) ?_
    intro x hx hx2
    rcases List.mem_singleton.mp hx2 with rfl
    obtain ⟨q, hq1, hq2⟩ := List.mem_map.mp hx
    exact hseen2 (hq2 ▸ (h.1 q hq1).2)

theorem processPage_inv (pd : pageData) (st : List String × List blogPost)
    (h : discInv st.1 st.2) :
    discInv (processPage pd st).1 (processPage pd st).2 := by
  show discInv (pd.anchors.foldl anchorStep st).1 (pd.anchors.foldl anchorStep st).2
  induction pd.anchors generalizing st with
  | nil => exact h
  | cons a t ih => exact ih _ (anchorStep_inv st a h).1

theorem getAllBlogLinksAux_inv (site : listingSite) (page : Nat)
    (seen : List String) (posts : List blogPost) (h : discInv seen posts) :
    (∀ p ∈ (getAllBlogLinksAux site page seen posts).1, p.slug ≠ "")
      ∧ ((getAllBlogLinksAux site page seen posts).1.map (fun p => p.slug)).Nodup := by
  induction site generalizing page seen posts with
  | nil => exact ⟨fun p hp => (h.1 p hp).1, h.2⟩
  | cons o rest ih =>
    cases o with
    | none => exact ⟨fun p hp => (h.1 p hp).1, h.2⟩
    | some pd =>
      have h2 := processPage_inv pd (seen, posts) h
      rcases hnd : pd.nextDisabled with _ | b
      · have hred : getAllBlogLinksAux (some pd :: rest) page seen posts
            = ((processPage pd (seen, posts)).2, none) := by
          simp [getAllBlogLinksAux, hnd]
        rw [hred]
        exact ⟨fun p hp => (h2.1 p hp).1, h2.2⟩
      · cases b with
        | true =>
          have hred : getAllBlogLinksAux (some pd :: rest) page seen posts
              = ((processPage pd (seen, posts)).2, none) := by
            simp [getAllBlogLinksAux, hnd]
          rw [hred]
          exact ⟨fun p hp => (h2.1 p hp).1, h2.2⟩
        | false =>
          have hred : getAllBlogLinksAux (some pd :: rest) page seen posts
              = getAllBlogLinksAux rest (page + 1)
                  (processPage pd (seen, posts)).1 (processPage pd (seen, posts)).2 := by
            simp [getAllBlogLinksAux, hnd]
          rw [hred]
          exact ih (page + 1) _ _ h2

/- ── Theorems for claim C8 ─────────────────────────────────────────────── -/

/-- Claim C8: every ArticleRef returned by one discovery pass has a
non-empty slug, and the slugs of the pass are pairwise distinct across
all pages (empty, parameterized and already-seen slugs having been
skipped). -/
theorem c8_discovery_slugs (site : listingSite) :
    (∀ p ∈ (getAllBlogLinks site).1, p.slug ≠ "")
      ∧ ((getAllBlogLinks site).1.map (fun p => p.slug)).Nodup :=
  getAllBlogLinksAux_inv site 1 [] []
    ⟨fun p hp => absurd hp (List.not_mem_nil p), List.nodup_nil⟩

/-- Witness for claim C8 at a concrete two-post site. -/
theorem c8_discovery_slugs_witness : postA.slug ≠ "" :=
  (c8_discovery_slugs siteTwoPosts).1 postA (by decide)

/- ── Lemmas about the main run ─────────────────────────────────────────── -/

/-- The slugs of the sections an archive action emitted. -/
def archiveSections : archiveAction → List String
  | .untouched => []
  | .rebuilt l => l
  | .appended l => l

theorem mainDiscover_eq_some (site : listingSite) (allPosts : List blogPost)
    (h : mainDiscover site = some allPosts) :
    (getAllBlogLinks site).1 = allPosts ∧ allPosts ≠ [] := by
  unfold mainDiscover at h
  cases he : (getAllBlogLinks site).2 with
  | some p => simp only [he] at h; exact Option.noConfusion h
  | none =>
    simp only [he] at h
    by_cases hie : (getAllBlogLinks site).1.isEmpty = true
    · simp [hie] at h
    · have h2 : (getAllBlogLinks site).1 = allPosts := by simpa [hie] using h
      refine ⟨h2, ?_⟩
      intro hn
      rw [h2, hn] at hie
      exact hie rfl

theorem selectToScrape_empty_cp (force : Bool) (allPosts : List blogPost) :
    (selectToScrape force [] allPosts).1 = allPosts := by
  cases force <;> simp [selectToScrape, lookupKey]

theorem selectToScrape_snd_empty (force : Bool) (cp0 : checkpoint)
    (allPosts : List blogPost) (hpre : force = true ∨ cp0 = []) :
    (selectToScrape force cp0 allPosts).2 = [] := by
  rcases hpre with rfl | rfl
  · rfl
  · cases force <;> rfl

/- ── Theorems for claim C3 ─────────────────────────────────────────────── -/

/-- The drifted outcome of the claim C3 counterexample run. -/
def c3driftOut : runOutcome :=
  ⟨[("post-b", ⟨"Post B", "https://chainguard.dev/unchained/post-b", "", "t1"⟩),
    ("post-a", entryA)], .rebuilt ["post-b"], 1⟩

/-- Claim C3 counterexample: a non-forced run with no prior archive file
but a surviving non-empty checkpoint enters rebuild mode, yet emits
sections only for this run's results: the slug post-a stays in the
ledger while the rebuilt archive has no section for it, so the ledger
and the archive disagree after a rebuild run. -/
theorem c3_counterexample :
    runMain false false cpA siteTwoPosts pagesOK "t1" = some c3driftOut
      ∧ "post-a" ∈ keysOf c3driftOut.finalCp
      ∧ "post-a" ∉ archiveSections c3driftOut.archive :=
  ⟨by decide, by decide, by decide⟩

/-- Claim C3 (amended): after a rebuild run whose selection covered the
whole listing — the force flag set, or the pre-run ledger empty — the
set of slugs in the checkpoint ledger equals the set of slugs with a
section in the written archive; when rebuild is triggered only by a
missing archive file while a non-empty ledger survives, previously
checkpointed slugs keep their ledger entry but get no section. -/
theorem c3_amended_rebuild_consistency (force archiveExists : Bool)
    (cp0 : checkpoint) (site : listingSite) (pages : blogPost → Option articleDoc)
    (now : String) (o : runOutcome) (hpre : force = true ∨ cp0 = [])
    (hrun : runMain force archiveExists cp0 site pages now = some o) :
    ∀ s, s ∈ keysOf o.finalCp ↔ s ∈ archiveSections o.archive := by
  cases hd : mainDiscover site with
  | none => simp only [runMain, hd] at hrun; exact Option.noConfusion hrun
  | some allPosts =>
    obtain ⟨hall, hne⟩ := mainDiscover_eq_some site allPosts hd
    simp only [runMain, hd] at hrun
    have hsel1 : (selectToScrape force cp0 allPosts).1 = allPosts := by
      rcases hpre with rfl | rfl
      · rfl
      · exact selectToScrape_empty_cp force allPosts
    have hsel2 : (selectToScrape force cp0 allPosts).2 = [] :=
      selectToScrape_snd_empty force cp0 allPosts hpre
    have hie : (selectToScrape force cp0 allPosts).1.isEmpty = false := by
      rw [hsel1]
      cases allPosts with
      | nil => exact absurd rfl hne
      | cons a t => rfl
    rw [hie] at hrun
    simp only [Bool.false_eq_true, if_false, Option.some.injEq] at hrun
    subst hrun
    intro s
    rw [show (archiveSections
        (if force || !archiveExists then
          archiveAction.rebuilt ((allPosts.filter (fun p =>
            (lookupKey (scrapeAll (fun p => downloadAndConvertPost p (pages p))
              (selectToScrape force cp0 allPosts).1) p.slug).isSome)).map (fun p => p.slug))
        else archiveAction.appended ((allPosts.filter (fun p =>
            (lookupKey (scrapeAll (fun p => downloadAndConvertPost p (pages p))
              (selectToScrape force cp0 allPosts).1) p.slug).isSome)).map (fun p => p.slug)))
        = (allPosts.filter (fun p =>
            (lookupKey (scrapeAll (fun p => downloadAndConvertPost p (pages p))
              (selectToScrape force cp0 allPosts).1) p.slug).isSome)).map (fun p => p.slug))
      from by cases force || !archiveExists <;> rfl]
    rw [mem_keys_updateCheckpoint, hsel2, hsel1]
    simp only [keysOf, List.map_nil, List.not_mem_nil, or_false]
    constructor
    · intro hs
      obtain ⟨q, hq, hqe, hqs⟩ :=
        (mem_keys_scrapeAll (fun p => downloadAndConvertPost p (pages p)) allPosts s).mp hs
      rw [downloadAndConvertPost_slug] at hqs
      refine List.mem_map.mpr ⟨q, List.mem_filter.mpr ⟨hq, ?_⟩, hqs⟩
      rw [lookupKey_isSome_iff, hqs]
      exact hs
    · intro hs
      obtain ⟨q, hq, hqs⟩ := List.mem_map.mp hs
      have hq2 := (List.mem_filter.mp hq).2
      rw [lookupKey_isSome_iff] at hq2
      rw [← hqs]
      exact hq2

/-- The outcome of the forced witness run for claim C3. -/
def c3forceOut : runOutcome :=
  ⟨[("post-b", ⟨"Post B", "https://chainguard.dev/unchained/post-b", "", "t"⟩),
    ("post-a", ⟨"Post A", "https://chainguard.dev/unchained/post-a", "", "t"⟩)],
   .rebuilt ["post-a", "post-b"], 2⟩

/-- Witness for the amended claim C3 at a concrete forced rebuild run. -/
theorem c3_amended_rebuild_consistency_witness :
    "post-a" ∈ keysOf c3forceOut.finalCp
      ↔ "post-a" ∈ archiveSections c3forceOut.archive :=
  c3_amended_rebuild_consistency true true cpA siteTwoPosts pagesOK "t" c3forceOut
    (Or.inl rfl) (by decide) "post-a"

/- ── Theorems for claim C6 ─────────────────────────────────────────────── -/

/-- Claim C6 counterexample: one discovered post whose article fetch fails
deterministically. The first incremental run leaves the ledger empty
(the failure is not checkpointed); the second run over the unchanged
site selects the same slug again and performs one article fetch, not
zero, refuting the zero-fetch half of the claim (the ledgers do
coincide). -/
theorem c6_counterexample :
    runMain false false [] siteOnePost pagesFail "t1" = some ⟨[], .rebuilt [], 1⟩
      ∧ runMain false true [] siteOnePost pagesFail "t2" = some ⟨[], .appended [], 1⟩
      ∧ (1 : Nat) ≠ 0 :=
  ⟨by decide, by decide, by decide⟩

/-- Claim C6 (amended): if every article scrape of the first incremental
run succeeds, a second incremental run over the unchanged site takes
the early return: it performs zero article fetches, leaves the archive
untouched and persists a ledger identical to the first run's ledger;
without the success proviso the ledger is still stable but previously
failed slugs are fetched again. -/
theorem c6_amended_incremental_idempotent (ae1 ae2 : Bool) (cp0 : checkpoint)
    (site : listingSite) (pages : blogPost → Option articleDoc)
    (now1 now2 : String) (o1 : runOutcome)
    (h1 : runMain false ae1 cp0 site pages now1 = some o1)
    (hsucc : ∀ p ∈ (selectToScrape false cp0 (getAllBlogLinks site).1).1,
        (downloadAndConvertPost p (pages p)).err = none) :
    runMain false ae2 o1.finalCp site pages now2
      = some ⟨o1.finalCp, .untouched, 0⟩ := by
  cases hd : mainDiscover site with
  | none => simp only [runMain, hd] at h1; exact Option.noConfusion h1
  | some allPosts =>
    obtain ⟨hall, hne⟩ := mainDiscover_eq_some site allPosts hd
    rw [hall] at hsucc
    simp only [runMain, hd] at h1 ⊢
    have hcov : ∀ p ∈ allPosts, (lookupKey o1.finalCp p.slug).isSome = true := by
      cases hie : (selectToScrape false cp0 allPosts).1.isEmpty with
      | true =>
        rw [hie] at h1
        simp only [if_true, Option.some.injEq] at h1
        have hfc : o1.finalCp = cp0 := by rw [← h1]
        have h3 : (selectToScrape false cp0 allPosts).1 = [] :=
          List.isEmpty_iff.mp hie
        have h4 : allPosts.filter (fun q => (lookupKey cp0 q.slug).isNone) = [] := by
          rw [show (selectToScrape false cp0 allPosts).1
              = allPosts.filter (fun q => (lookupKey cp0 q.slug).isNone) from rfl] at h3
          exact h3
        have hmem := List.filter_eq_nil_iff.mp h4
        intro p hp
        rw [hfc]
        have h5 := hmem p hp
        cases hlk : lookupKey cp0 p.slug with
        | none => rw [hlk] at h5; simp at h5
        | some e => simp [hlk]
      | false =>
        rw [hie] at h1
        simp only [Bool.false_eq_true, if_false, Option.some.injEq] at h1
        have hfc : o1.finalCp = updateCheckpoint now1 cp0
            (scrapeAll (fun p => downloadAndConvertPost p (pages p))
              (selectToScrape false cp0 allPosts).1) := by
          rw [← h1]; rfl
        intro p hp
        rw [hfc, lookupKey_isSome_iff, mem_keys_updateCheckpoint]
        by_cases hin : p.slug ∈ keysOf cp0
        · exact Or.inr hin
        · left
          have hpin : p ∈ (selectToScrape false cp0 allPosts).1 := by
            simp only [selectToScrape, if_neg Bool.false_ne_true, List.mem_filter]
            exact ⟨hp, by
              simp only [Option.isNone_iff_eq_none]
              exact (lookupKey_eq_none_iff cp0 p.slug).mpr hin⟩
          refine (mem_keys_scrapeAll _ _ p.slug).mpr ⟨p, hpin, hsucc p hpin, ?_⟩
          exact downloadAndConvertPost_slug p (pages p)
    have hsel2 : (selectToScrape false o1.finalCp allPosts).1 = [] := by
      rw [show (selectToScrape false o1.finalCp allPosts).1
          = allPosts.filter (fun q => (lookupKey o1.finalCp q.slug).isNone) from rfl]
      refine List.filter_eq_nil_iff.mpr ?_
      intro p hp
      have h6 := hcov p hp
      cases hlk : lookupKey o1.finalCp p.slug with
      | none => rw [hlk] at h6; exact absurd h6 (by simp)
      | some e => simp [hlk]
    rw [hsel2]
    rfl

/-- The outcome of the successful first run used by the claim C6 witness. -/
def c6okOut : runOutcome :=
  ⟨[("post-a", ⟨"Post A", "https://chainguard.dev/unchained/post-a", "", "t1"⟩)],
   .rebuilt ["post-a"], 1⟩

/-- Witness for the amended claim C6 at a concrete successful run pair. -/
theorem c6_amended_incremental_idempotent_witness :
    runMain false true c6okOut.finalCp siteOnePost pagesOK "t2"
      = some ⟨c6okOut.finalCp, .untouched, 0⟩ :=
  c6_amended_incremental_idempotent false true [] siteOnePost pagesOK "t1" "t2"
    c6okOut (by decide) (by decide)

/- ── Theorems for claim C7 ─────────────────────────────────────────────── -/

/-- The free-text fallback scan shared by the date-resolution readings:
the first paragraph, div or span whose trimmed text is a long-form
date, or empty. -/
def scanTextDates (l : List String) : String :=
  match l.find? (fun s => isLongDate (goTrimS s)) with
  | some s => goTrimS s
  | none => ""

/-- Date resolution as claim C7 words it: (a) a parseable machine-readable
attribute is reformatted; (b) an absent or unparseable attribute falls
back to the time element text; (c) otherwise the free-text scan. This
definition follows the claim, to be compared with resolveDate from the
source. -/
def claimedDateSpec (d : articleDoc) : String :=
  let structured :=
    match d.timeEl with
    | none => ""
    | some t =>
      match t.datetimeAttr with
      | none => goTrimS t.text
      | some dt =>
        match parseISODate dt with
        | some ymd => formatLongDate ymd
        | none => goTrimS t.text
  if structured = "" then scanTextDates d.pdivspanTexts else structured

/-- Date resolution as the amended claim words it: (a) a non-empty
parseable attribute is reformatted to the long form; (b) a non-empty
but unparseable attribute is used verbatim as the date; (c) an absent
or empty attribute falls back to the trimmed time element text; (d) if
the result is still empty, the free-text scan; absence of every source
leaves the date empty. -/
def amendedDateSpec (d : articleDoc) : String :=
  let structured :=
    match d.timeEl with
    | none => ""
    | some t =>
      match t.datetimeAttr with
      | none => goTrimS t.text
      | some dt =>
        if dt = "" then goTrimS t.text
        else
          match parseISODate dt with
          | some ymd => formatLongDate ymd
          | none => dt
  if structured = "" then scanTextDates d.pdivspanTexts else structured

/-- The article page of the claim C7 counterexample: a time element whose
machine-readable attribute is present but unparseable while its text
is a perfectly good long-form date. -/
def ce7doc : articleDoc :=
  { timeEl := some { datetimeAttr := some "bad-date", text := "March 3, 2021" },
    pdivspanTexts := [], h1 := "", convertedMD := some "B" }

/-- Claim C7 counterexample: with an unparseable non-empty datetime
attribute the source keeps the raw attribute value as the date instead
of falling back to the time element text, so the resolved date is the
junk attribute and not the long-form date the claim predicts. -/
theorem c7_counterexample :
    resolveDate ce7doc = "bad-date"
      ∧ claimedDateSpec ce7doc = "March 3, 2021"
      ∧ resolveDate ce7doc ≠ claimedDateSpec ce7doc :=
  ⟨by decide, by decide, by decide⟩

/-- Claim C7 (amended): the date is resolved as (a) a non-empty parseable
attribute reformatted to the human long form; (b) a non-empty
unparseable attribute taken verbatim; (c) an absent or empty attribute
replaced by the trimmed element text; (d) failing all, the first
paragraph, div or span text matching the long-form pattern; and a
missing date never fails the extraction: a converted article yields a
result with no error whatever the date turned out to be. -/
theorem c7_amended_date_resolution (d : articleDoc) (post : blogPost) (raw : String) :
    resolveDate d = amendedDateSpec d
      ∧ (d.convertedMD = some raw
          → (downloadAndConvertPost post (some d)).err = none) := by
  constructor
  · unfold resolveDate amendedDateSpec
    cases d.timeEl with
    | none => rfl
    | some t =>
      obtain ⟨attr, txt⟩ := t
      cases attr with
      | none => rfl
      | some dt =>
        by_cases hdt : dt = ""
        · subst hdt; rfl
        · simp [hdt, scanTextDates]
  · intro h
    simp [downloadAndConvertPost, h]

/-- Witness for the amended claim C7 at the concrete counterexample page,
whose conversion succeeded and therefore carries no error. -/
theorem c7_amended_date_resolution_witness :
    (downloadAndConvertPost postA (some ce7doc)).err = none :=
  (c7_amended_date_resolution ce7doc postA "B").2 rfl

/- ── Length lemmas for the cleanup passes ──────────────────────────────── -/

theorem countLeadNl_le (l : List Char) : countLeadNl l ≤ l.length := by
  induction l with
  | nil => exact Nat.le_refl _
  | cons c cs ih =>
    cases hc : (c == '\n') with
    | false => simp [countLeadNl, hc]
    | true =>
      simp only [countLeadNl, hc, if_true, List.length_cons]
      omega

theorem goDropWhile_length_le (p : Char → Bool) (l : List Char) :
    (l.dropWhile p).length ≤ l.length := by
  induction l with
  | nil => exact Nat.le_refl _
  | cons c cs ih =>
    cases hp : p c with
    | false => simp [List.dropWhile, hp]
    | true =>
      simp only [List.dropWhile, hp, List.length_cons]
      omega

theorem goTrim_length_le (l : List Char) : (goTrim l).length ≤ l.length := by
  unfold goTrim
  calc (((l.dropWhile isGoSpace).reverse.dropWhile isGoSpace).reverse).length
      = ((l.dropWhile isGoSpace).reverse.dropWhile isGoSpace).length :=
        List.length_reverse _
    _ ≤ (l.dropWhile isGoSpace).reverse.length := goDropWhile_length_le _ _
    _ = (l.dropWhile isGoSpace).length := List.length_reverse _
    _ ≤ l.length := goDropWhile_length_le _ _

theorem truncAt_length_le (pat : List Char) (s : List Char) :
    (truncAt pat s).length ≤ s.length := by
  induction s with
  | nil => exact Nat.le_refl _
  | cons c cs ih =>
    cases hp : pat.isPrefixOf (c :: cs) with
    | true => simp [truncAt, hp]
    | false =>
      simp only [truncAt, hp, Bool.false_eq_true, if_false, List.length_cons]
      omega

theorem scanLSF_length_le (m : List Char → Option Nat) :
    ∀ (f : Nat) (b : Bool) (s : List Char), (scanLSF m f b s).length ≤ s.length := by
  intro f
  induction f with
  | zero => intro b s; exact Nat.le_refl _
  | succ f ih =>
    intro b s
    cases s with
    | nil =>
      have h : scanLSF m (f + 1) b [] = [] := by cases b <;> rfl
      rw [h]
    | cons c cs =>
      cases b with
      | false =>
        have h : scanLSF m (f + 1) false (c :: cs)
            = c :: scanLSF m f (c == '\n') cs := rfl
        rw [h, List.length_cons, List.length_cons]
        exact Nat.succ_le_succ (ih _ cs)
      | true =>
        cases hm : m (c :: cs) with
        | some n =>
          have h : scanLSF m (f + 1) true (c :: cs)
              = scanLSF m f true (cs.drop (n - 1)) := by
            show (match m (c :: cs) with
              | some n => scanLSF m f true (cs.drop (n - 1))
              | none => c :: scanLSF m f (c == '\n') cs) = _
            rw [hm]
          rw [h]
          calc (scanLSF m f true (cs.drop (n - 1))).length
              ≤ (cs.drop (n - 1)).length := ih _ _
            _ ≤ cs.length := by rw [List.length_drop]; omega
            _ ≤ (c :: cs).length := by rw [List.length_cons]; omega
        | none =>
          have h : scanLSF m (f + 1) true (c :: cs)
              = c :: scanLSF m f (c == '\n') cs := by
            show (match m (c :: cs) with
              | some n => scanLSF m f true (cs.drop (n - 1))
              | none => c :: scanLSF m f (c == '\n') cs) = _
            rw [hm]
          rw [h, List.length_cons, List.length_cons]
          exact Nat.succ_le_succ (ih _ cs)

theorem scanLS_length_le (m : List Char → Option Nat) (s : List Char) :
    (scanLS m s).length ≤ s.length :=
  scanLSF_length_le m (s.length + 1) true s

theorem scanAllF_length_le (m : List Char → Option Nat) :
    ∀ (f : Nat) (s : List Char), (scanAllF m f s).length ≤ s.length := by
  intro f
  induction f with
  | zero => intro s; exact Nat.le_refl _
  | succ f ih =>
    intro s
    cases s with
    | nil => exact Nat.le_refl _
    | cons c cs =>
      cases hm : m (c :: cs) with
      | some n =>
        have h : scanAllF m (f + 1) (c :: cs) = scanAllF m f (cs.drop (n - 1)) := by
          show (match m (c :: cs) with
            | some n => scanAllF m f (cs.drop (n - 1))
            | none => c :: scanAllF m f cs) = _
          rw [hm]
        rw [h]
        calc (scanAllF m f (cs.drop (n - 1))).length
            ≤ (cs.drop (n - 1)).length := ih _
          _ ≤ cs.length := by rw [List.length_drop]; omega
          _ ≤ (c :: cs).length := by rw [List.length_cons]; omega
      | none =>
        have h : scanAllF m (f + 1) (c :: cs) = c :: scanAllF m f cs := by
          show (match m (c :: cs) with
            | some n => scanAllF m f (cs.drop (n - 1))
            | none => c :: scanAllF m f cs) = _
          rw [hm]
        rw [h, List.length_cons, List.length_cons]
        exact Nat.succ_le_succ (ih cs)

theorem scanAll_length_le (m : List Char → Option Nat) (s : List Char) :
    (scanAll m s).length ≤ s.length :=
  scanAllF_length_le m (s.length + 1) s

theorem collapseBlanksF_length_le :
    ∀ (f : Nat) (s : List Char), (collapseBlanksF f s).length ≤ s.length := by
  intro f
  induction f with
  | zero => intro s; exact Nat.le_refl _
  | succ f ih =>
    intro s
    cases s with
    | nil => exact Nat.le_refl _
    | cons c cs =>
      cases hc : (c == '\n') with
      | false =>
        have h : collapseBlanksF (f + 1) (c :: cs) = c :: collapseBlanksF f cs := by
          simp [collapseBlanksF, hc]
        rw [h, List.length_cons, List.length_cons]
        exact Nat.succ_le_succ (ih cs)
      | true =>
        have h : collapseBlanksF (f + 1) (c :: cs)
            = (if countLeadNl cs + 1 ≥ 3 then ['\n', '\n']
               else '\n' :: List.replicate (countLeadNl cs) '\n')
              ++ collapseBlanksF f (cs.drop (countLeadNl cs)) := by
          simp [collapseBlanksF, hc]
        rw [h, List.length_append]
        have h1 : (if countLeadNl cs + 1 ≥ 3 then ['\n', '\n']
            else '\n' :: List.replicate (countLeadNl cs) '\n').length
            ≤ countLeadNl cs + 1 := by
          split
          · have h4 : (['\n', '\n'] : List Char).length = 2 := rfl
            omega
          · simp [List.length_replicate]
        have h2 : (collapseBlanksF f (cs.drop (countLeadNl cs))).length
            ≤ cs.length - countLeadNl cs := by
          refine Nat.le_trans (ih _) ?_
          rw [List.length_drop]
        have h3 := countLeadNl_le cs
        rw [List.length_cons]
        omega

theorem collapseBlanks_length_le (s : List Char) :
    (collapseBlanks s).length ≤ s.length :=
  collapseBlanksF_length_le (s.length + 1) s

theorem cleanMarkdown_length_le (raw title : String) :
    (cleanMarkdown raw title).length ≤ raw.length := by
  show (goTrim (collapseBlanks (scanLS matchNextImage (scanAll matchReady
      (scanAll matchCGCta (truncAt wantMoreLit (truncAt relatedLit
        (truncAt shareLit (scanLS (matchH1 title.data) (scanLS matchDateLine
          (scanLS matchBreadcrumb raw.data))))))))))).length
    ≤ raw.data.length
  refine Nat.le_trans (goTrim_length_le _) ?_
  refine Nat.le_trans (collapseBlanks_length_le _) ?_
  refine Nat.le_trans (scanLS_length_le _ _) ?_
  refine Nat.le_trans (scanAll_length_le _ _) ?_
  refine Nat.le_trans (scanAll_length_le _ _) ?_
  refine Nat.le_trans (truncAt_length_le _ _) ?_
  refine Nat.le_trans (truncAt_length_le _ _) ?_
  refine Nat.le_trans (truncAt_length_le _ _) ?_
  refine Nat.le_trans (scanLS_length_le _ _) ?_
  refine Nat.le_trans (scanLS_length_le _ _) ?_
  exact scanLS_length_le _ _

/- ── Theorems for claim C5 ─────────────────────────────────────────────── -/

/-- Claim C5 counterexample: a breadcrumb line preceded by one space. On
the first application the line-start anchored breadcrumb pass cannot
match (the line starts with a space), but the final trim removes that
space; the second application then strips the now-exposed breadcrumb,
so cleaning twice differs from cleaning once and cleaned output is not
a fixed point. -/
theorem c5_counterexample :
    cleanMarkdown (cleanMarkdown " [All Articles](/unchained)\nX" "T") "T"
      ≠ cleanMarkdown " [All Articles](/unchained)\nX" "T" := by
  decide

/-- Claim C5 (amended): the Cleanup Pipeline is not idempotent — a second
application can strip strictly more (for instance a breadcrumb exposed
by the final trim) — but it never adds text: every pass is
length-nonincreasing, so the second application's output is never
longer than the first's. -/
theorem c5_amended_second_clean_never_grows (raw title : String) :
    (cleanMarkdown (cleanMarkdown raw title) title).length
      ≤ (cleanMarkdown raw title).length :=
  cleanMarkdown_length_le (cleanMarkdown raw title) title
